import Mathlib

/-!
Shallow embedding of the two scripts of the CDspec repository:
`processing/extract_student_data.py` (record extractor) and
`processing/batch_scrape_storymaps.py` (StoryMap screenshotter).

Modelling boundary:
* File-system reads are shallowly embedded: a Part-1 source file is given
  together with the outcome of the two read strategies (the plain `csv`
  read and the pandas fallback), a Part-2 source file together with the
  outcome of reading its text (`none` models a raised read error).
  `os.listdir` + `sort()` is embedded as "the function receives the sorted
  directory listing"; an absent directory is the `none` case of
  `Option (List _)`.
* Python strings are Lean `String`s; cells are already strings
  (`str(cell)` in the source).  Python truthiness of an optional string
  (`if not x`) is `truthyOpt` below: `None` and `""` are falsy.
* The two regular expressions of `extract_url_from_html` are embedded as
  explicit scanners with Python `re.search` semantics: leftmost starting
  position, greedy star with backtracking.
* Log messages keep the leading marker text of the source f-strings; the
  interpolated trailing payload (exception reprs, URLs) is kept where it
  is a plain string and abbreviated where it is a Python exception object.
-/

/-- Python truthiness of an optional string: `None` and `""` are falsy. -/
def truthyOpt : Option String → Bool
  | none => false
  | some s => !s.isEmpty

/-- Is `p` a leading run of `l` (exact character match)? -/
def chStarts : List Char → List Char → Bool
  | [], _ => true
  | _ :: _, [] => false
  | p :: ps, c :: cs => p == c && chStarts ps cs

/-- Python `needle in hay` on character lists. -/
def chHas (needle : List Char) : List Char → Bool
  | [] => needle.isEmpty
  | c :: t => chStarts needle (c :: t) || chHas needle t

/-- Python `needle in hay` for strings (case sensitive). -/
def containsSub (needle hay : String) : Bool :=
  chHas needle.data hay.data

/-- Python `s.startswith(p)`. -/
def startsWithStr (s p : String) : Bool :=
  chStarts p.data s.data

/-- Python `s.endswith(p)`. -/
def endsWithStr (s p : String) : Bool :=
  chStarts p.data.reverse s.data.reverse

/-- Python `s.strip()` on a character list (whitespace both ends). -/
def stripChars (l : List Char) : List Char :=
  ((l.dropWhile Char.isWhitespace).reverse.dropWhile Char.isWhitespace).reverse

/-- Python `s.strip()`. -/
def stripStr (s : String) : String :=
  String.mk (stripChars s.data)

/-- Python `s.lower()` (ASCII, which covers the data in this repo). -/
def lowerStr (s : String) : String :=
  String.mk (s.data.map Char.toLower)

/-- Python `filename.split('_')[0]`: text before the first underscore. -/
def studentOf (filename : String) : String :=
  String.mk (filename.data.takeWhile (fun c => c != '_'))

/-- Python `u.strip().rstrip('/').lower()` — the URL normalisation used by
the merge policy of `process_files`. -/
def normUrl (s : String) : String :=
  String.mk (((stripChars s.data).reverse.dropWhile (fun c => c == '/')).reverse.map Char.toLower)

/-- Python `u.strip().rstrip('/').lower() if u else ""` applied to an
optional string (lines 226-227 of `extract_student_data.py`). -/
def pyClean (u : Option String) : String :=
  match u with
  | none => ""
  | some s => if s.isEmpty then "" else normUrl s

/-- The character list after the first `:` of a cell, or `none` when the
cell has no colon (Python `":" in cell` + `cell.split(":", 1)[1]`). -/
def afterFirstColon : List Char → Option (List Char)
  | [] => none
  | c :: t => if c == ':' then some t else afterFirstColon t

/-- The `parts = cell.split(":", 1); parts[1].strip()` branch of
`extract_from_rows`: the stripped text after the first colon, when
non-empty. -/
def colonVal (cell : String) : Option String :=
  match afterFirstColon cell.data with
  | none => none
  | some t =>
    let v := String.mk (stripChars t)
    if v.isEmpty then none else some v

/-- The inner `for i, cell in enumerate(row_str)` loop of
`extract_from_rows`: at the first cell containing `key`
(case-insensitively), take the next cell when present and non-empty, else
the colon-value of the same cell; the loop `break`s after the first
matching cell either way. -/
def findInRow (key : String) : List String → Option String
  | [] => none
  | cell :: rest =>
    if containsSub key (lowerStr cell) then
      match rest with
      | next :: _ => if !next.isEmpty then some next else colonVal cell
      | [] => colonVal cell
    else findInRow key rest

/-- `extract_from_rows` of `extract_student_data.py` (lines 21-66): scan
the first 10 rows for "community district" and "storymap url" keys,
returning the two optional values and the `issues` flag. -/
def extract_from_rows (rows : List (List String)) : Option String × Option String × Bool :=
  let step := fun (acc : Option String × Option String) (row : List String) =>
    if row.isEmpty then acc
    else
      let rowStr := row.map stripStr
      let cd :=
        if truthyOpt acc.1 then acc.1
        else
          match findInRow "community district" rowStr with
          | some v => some v
          | none => acc.1
      let url :=
        if truthyOpt acc.2 then acc.2
        else
          match findInRow "storymap url" rowStr with
          | some v => some v
          | none => acc.2
      (cd, url)
  let r := (rows.take 10).foldl step (none, none)
  (r.1, r.2, !truthyOpt r.1 || !truthyOpt r.2)

/-- Is this character one of the two quote characters of the regex classes
`["\']` (double quote or apostrophe)? -/
def isQuoteCh (c : Char) : Bool :=
  c == '"' || c.toNat == 39

/-- Match a literal pattern case-insensitively at the head of the input,
returning the rest of the input (the `re.IGNORECASE` literal parts). -/
def matchLitCI : List Char → List Char → Option (List Char)
  | [], l => some l
  | _ :: _, [] => none
  | p :: ps, c :: cs => if p.toLower == c.toLower then matchLitCI ps cs else none

/-- Match `href=["\']([^"\']+)["\']` at the head of the input, returning
the captured group. -/
def hrefAt (l : List Char) : Option String :=
  match matchLitCI "href=".data l with
  | none => none
  | some rest =>
    match rest with
    | [] => none
    | q :: rest2 =>
      if isQuoteCh q then
        let cap := rest2.takeWhile (fun c => !isQuoteCh c)
        if cap.isEmpty then none
        else
          match rest2.drop cap.length with
          | [] => none
          | q2 :: _ => if isQuoteCh q2 then some (String.mk cap) else none
      else none

/-- Greedy backtracking over the split point of `\s+[^>]*` before
`href=...`: try the longest star first (Python greedy `*`), down to a gap
of one character (`\s+` consumes at least one). -/
def anchorTryFrom (rest : List Char) : Nat → Option String
  | 0 => none
  | Nat.succ k =>
    match hrefAt (rest.drop (Nat.succ k)) with
    | some u => some u
    | none => anchorTryFrom rest k

/-- Match the regex `<a\s+[^>]*href=["\']([^"\']+)["\']` (IGNORECASE) at
the head of the input. -/
def matchAnchorAt (l : List Char) : Option String :=
  match l with
  | '<' :: a :: rest =>
    if a.toLower == 'a' then
      match rest with
      | [] => none
      | w :: _ =>
        if w.isWhitespace then
          anchorTryFrom rest ((rest.takeWhile (fun c => c != '>')).length)
        else none
    else none
  | _ => none

/-- `re.search` of the anchor regex: leftmost starting position. -/
def scanAnchor : List Char → Option String
  | [] => none
  | c :: t =>
    match matchAnchorAt (c :: t) with
    | some u => some u
    | none => scanAnchor t

/-- Match `url=([^"\';]+)` at the head of the input, returning the
captured group. -/
def urlAt (l : List Char) : Option String :=
  match matchLitCI "url=".data l with
  | none => none
  | some rest =>
    let cap := rest.takeWhile (fun c => !isQuoteCh c && c != ';')
    if cap.isEmpty then none else some (String.mk cap)

/-- Greedy backtracking over the split point of `[^"\']*` before
`url=...`: longest star first, down to the empty star. -/
def metaTryFrom (rest : List Char) : Nat → Option String
  | 0 => urlAt rest
  | Nat.succ k =>
    match urlAt (rest.drop (Nat.succ k)) with
    | some u => some u
    | none => metaTryFrom rest k

/-- Match the regex `content=["\'][^"\']*url=([^"\';]+)` (IGNORECASE) at
the head of the input. -/
def matchMetaAt (l : List Char) : Option String :=
  match matchLitCI "content=".data l with
  | none => none
  | some rest =>
    match rest with
    | [] => none
    | q :: rest2 =>
      if isQuoteCh q then
        metaTryFrom rest2 ((rest2.takeWhile (fun c => !isQuoteCh c)).length)
      else none

/-- `re.search` of the meta-refresh regex: leftmost starting position. -/
def scanMeta : List Char → Option String
  | [] => none
  | c :: t =>
    match matchMetaAt (c :: t) with
    | some u => some u
    | none => scanMeta t

/-- `extract_url_from_html` of `extract_student_data.py` (lines 68-92) on
the outcome of reading the file: `none` models a raised read error, which
the source catches and turns into "no URL".  Strategy 1 (anchor `href`)
runs first; strategy 2 (meta-refresh `url=`) only when it found nothing. -/
def extract_url_from_html (content : Option String) : Option String :=
  match content with
  | none => none
  | some c =>
    match scanAnchor c.data with
    | some u => some u
    | none => scanMeta c.data

/-- One consolidated student record (`records[student_name]` in the
source).  Keys that the source adds only on a Part-2 event
(`storymap_url_2`, `part_2_completed`, `url_mismatch`, `part_2_error`,
`note`) are `Option` fields whose `none` means "key absent from the
dict"; `community_district` and `storymap_url` are always-present keys
whose value may be Python `None`. -/
structure StudentRecord where
  student : String
  community_district : Option String
  storymap_url : Option String
  needs_review : Bool
  part_1_completed : Bool
  storymap_url_2 : Option String := none
  part_2_completed : Option Bool := none
  url_mismatch : Option Bool := none
  part_2_error : Option String := none
  note : Option String := none
  deriving DecidableEq, Repr

/-- The `records` dict: an insertion-ordered association list keyed by
student identifier (Python dicts preserve insertion order, and the output
array is `list(records.values())`). -/
def upsert (k : String) (v : StudentRecord) :
    List (String × StudentRecord) → List (String × StudentRecord)
  | [] => [(k, v)]
  | (k', v') :: rest => if k' = k then (k, v) :: rest else (k', v') :: upsert k v rest

/-- Python `student_name in records` / `records[student_name]` lookup. -/
def lookupRec (k : String) : List (String × StudentRecord) → Option StudentRecord
  | [] => none
  | (k', v) :: rest => if k' = k then some v else lookupRec k rest

/-- The mutable state of `process_files`: the `records` dict and the
lines appended to `processing/extraction_errors.log`. -/
structure ExtractState where
  records : List (String × StudentRecord)
  log : List String
  deriving DecidableEq, Repr

/-- Outcome of the Part-1 read strategies for one file.
`plain rows fallback` : the `csv.reader` read succeeded with `rows`
(`fallback` is what the pandas strategy would return, consulted only when
the strict-check indexing raises `IndexError` on an empty row);
`failRead fallback` : the plain read raised (Excel signature, decode
error, ...) and the pandas strategy returns `fallback`
(`none` = pandas also raised). -/
inductive P1Read where
  | plain (rows : List (List String)) (fallback : Option (List (List String)))
  | failRead (fallback : Option (List (List String)))
  deriving DecidableEq, Repr

/-- One file of the Part-1 source directory. -/
structure P1File where
  filename : String
  read : P1Read
  deriving DecidableEq, Repr

/-- One file of the Part-2 source directory; `content = none` models a
read error raised inside `extract_url_from_html`. -/
structure P2File where
  filename : String
  content : Option String
  deriving DecidableEq, Repr

/-- The strict-format pre-check (lines 139-144): `some strict_ok` when the
two indexings `rows[0][0]`, `rows[1][0]` are in bounds, `none` when one of
them raises `IndexError` (an empty row), which the source's
`except Exception` catches and sends to the pandas strategy. -/
def strictCheckRes (rows : List (List String)) : Option Bool :=
  if rows.length < 2 then some false
  else
    match rows with
    | r0 :: r1 :: _ =>
      match r0, r1 with
      | c0 :: _, c1 :: _ =>
        some (containsSub "Community District" c0 && containsSub "StoryMap URL" c1)
      | _, _ => none
    | _ => some false

/-- The pandas fallback branch of `process_files` (lines 154-178):
returns (community_district, storymap_url, needs_review, log lines).
`needs_review` is `true` unconditionally (set at line 157). -/
def pandasBranch (filename : String) (fb : Option (List (List String))) :
    Option String × Option String × Bool × List String :=
  let log0 := ["CSV FAIL: " ++ filename ++ " - attempting with Pandas."]
  match fb with
  | some rows2 =>
    let r := extract_from_rows rows2
    let log1 :=
      if r.2.2 then ["PANDAS FAIL: " ++ filename ++ " - Still missing data after coercion."]
      else ["RECOVERED: " ++ filename ++ " - Extracted data using Pandas/Fuzzy search."]
    (r.1, r.2.1, true, log0 ++ log1)
  | none =>
    (none, none, true, log0 ++ ["FATAL: Could not process " ++ filename ++ "."])

/-- The skip condition of the Part-1 loop (line 111). -/
def skip1 (f : P1File) : Bool :=
  startsWithStr f.filename "."

/-- The skip condition of the Part-2 loop (line 204). -/
def skip2 (f : P2File) : Bool :=
  startsWithStr f.filename "." || !endsWithStr f.filename ".html"

/-- The per-file extraction of the Part-1 loop body (lines 119-186):
(community_district, storymap_url, needs_review-before-final-checks, log
lines). -/
def p1Core (f : P1File) : Option String × Option String × Bool × List String :=
  match f.read with
  | .plain rows fb =>
    match strictCheckRes rows with
    | some ok =>
      let logs1 :=
        if ok then []
        else ["DEVIANT FORMAT: " ++ f.filename ++ " - trying fuzzy search."]
      let r := extract_from_rows rows
      (r.1, r.2.1, !ok || r.2.2, logs1)
    | none => pandasBranch f.filename fb
  | .failRead fb => pandasBranch f.filename fb

/-- The record stored by the Part-1 loop body (lines 188-194), after the
final missing-data checks. -/
def p1Record (f : P1File) : StudentRecord :=
  let core := p1Core f
  { student := studentOf f.filename
    community_district := core.1
    storymap_url := core.2.1
    needs_review := core.2.2.1 || !truthyOpt core.1 || !truthyOpt core.2.1
    part_1_completed := true }

/-- The log lines of the Part-1 loop body, including the final
missing-data checks (lines 180-186). -/
def p1Logs (f : P1File) : List String :=
  let core := p1Core f
  core.2.2.2 ++
    (if truthyOpt core.1 then []
     else ["MISSING DATA: " ++ f.filename ++ " - No Community District found."]) ++
    (if truthyOpt core.2.1 then []
     else ["MISSING DATA: " ++ f.filename ++ " - No StoryMap URL found."])

/-- The body of the Part-1 `for filename in files` loop (lines 108-194). -/
def p1Step (st : ExtractState) (f : P1File) : ExtractState :=
  if skip1 f then st
  else
    { records := upsert (studentOf f.filename) (p1Record f) st.records
      log := st.log ++ p1Logs f }

/-- Lines 220-237 of the source: attach `storymap_url_2`, mark
`part_2_completed`, then the three-way URL comparison (promote / flag
mismatch / leave).  Returns the updated record and the log lines. -/
def mergeUrls (student : String) (r : StudentRecord) (u : String) :
    StudentRecord × List String :=
  let r1 := { r with storymap_url_2 := some u, part_2_completed := some true }
  let u1c := pyClean r.storymap_url
  let u2c := pyClean (some u)
  if u1c.isEmpty && !u2c.isEmpty then
    ({ r1 with storymap_url := some u },
     ["UPDATED: " ++ student ++ " - Using Part 2 URL (Part 1 missing)."])
  else if !u1c.isEmpty && !u2c.isEmpty && u1c != u2c then
    ({ r1 with url_mismatch := some true },
     ["URL MISMATCH: " ++ student ++ " - Part 1: " ++
       r.storymap_url.getD "None" ++ " vs Part 2: " ++ u])
  else
    (r1, [])

/-- The record created at line 241 for a student only found in Part 2. -/
def part2OnlyRecord (student u : String) : StudentRecord :=
  { student := student
    community_district := none
    storymap_url := some u
    needs_review := true
    part_1_completed := false
    storymap_url_2 := some u
    part_2_completed := some true
    note := some "Found only in Part 2" }

/-- The Part-2 loop body's effect on the record of its student (lines
208-251), as a function of the current record at that key: `(some r', L)`
upserts `r'` and appends `L`; `(none, L)` only appends `L`. -/
def p2Update (f : P2File) (cur : Option StudentRecord) :
    Option StudentRecord × List String :=
  let student := studentOf f.filename
  let htmlLog : List String :=
    match f.content with
    | none => ["HTML FAIL: " ++ f.filename]
    | some _ => []
  let url2 := extract_url_from_html f.content
  if !truthyOpt url2 then
    let log2 := ["PART 2 FAIL: Could not extract URL from " ++ f.filename]
    match cur with
    | some r =>
      (some { r with needs_review := true, part_2_error := some "No URL found in HTML" },
       htmlLog ++ log2)
    | none => (none, htmlLog ++ log2)
  else
    let u := url2.getD ""
    match cur with
    | some r =>
      let m := mergeUrls student r u
      (some m.1, htmlLog ++ m.2)
    | none =>
      (some (part2OnlyRecord student u),
       htmlLog ++ ["NEW STUDENT: " ++ student ++ " found in Part 2."])

/-- The body of the Part-2 `for filename in files2` loop (lines 201-251). -/
def p2Step (st : ExtractState) (f : P2File) : ExtractState :=
  if skip2 f then st
  else
    let student := studentOf f.filename
    let res := p2Update f (lookupRec student st.records)
    { records :=
        match res.1 with
        | some r => upsert student r st.records
        | none => st.records
      log := st.log ++ res.2 }

/-- The CRITICAL message logged when the Part-1 directory is absent
(line 103). -/
def critMsg : String :=
  "CRITICAL: Directory not found: lecture_checklists/cdspec_1"

/-- The state after the Part-1 phase starting from the empty state. -/
def p1State (fs : List P1File) : ExtractState :=
  fs.foldl p1Step { records := [], log := [] }

/-- `process_files` of `extract_student_data.py` (lines 94-259), taking
the sorted listing of each source directory (`none` = directory absent).
The JSON serialisation step is `list(records.values())`, see
`outputRecords`. -/
def process_files (dir1 : Option (List P1File)) (dir2 : Option (List P2File)) : ExtractState :=
  let st1 :=
    match dir1 with
    | none => { records := [], log := [critMsg] : ExtractState }
    | some fs => p1State fs
  match dir2 with
  | none => st1
  | some fs => fs.foldl p2Step st1

/-- The output JSON array: `data = list(records.values())` (line 256). -/
def outputRecords (st : ExtractState) : List StudentRecord :=
  st.records.map Prod.snd

/-- Part-1 identifiers of the processed (non-hidden) files. -/
def p1Ids (fs : List P1File) : List String :=
  (fs.filter (fun f => !skip1 f)).map (fun f => studentOf f.filename)

/-- The Part-2 files that survive the skip filter of line 204. -/
def p2Processed (fs : List P2File) : List P2File :=
  fs.filter (fun f => !skip2 f)

/-- Identifiers of the processed Part-2 files. -/
def p2Ids (fs : List P2File) : List String :=
  (p2Processed fs).map (fun f => studentOf f.filename)

/-- Identifiers of the processed Part-2 files whose URL extraction
succeeds (Python-truthy result). -/
def p2SuccessIds (fs : List P2File) : List String :=
  ((p2Processed fs).filter (fun f => truthyOpt (extract_url_from_html f.content))).map
    (fun f => studentOf f.filename)

/-- A record as read back from the JSON consumed by
`batch_scrape_storymaps.py` (`student_record.get(...)` on a dict):
`url_mismatch` is its Python truthiness (absent / `false` / `null`
collapse to `false`). -/
structure ScrapeRecord where
  student : Option String
  storymap_url : Option String
  storymap_url_2 : Option String
  url_mismatch : Bool
  deriving DecidableEq, Repr

/-- Lines 32-34: the `part1` entry appended when `storymap_url` is
truthy. -/
def part1Entry (o : Option String) : List (String × String) :=
  match o with
  | some u => if !u.isEmpty then [("part1", u)] else []
  | none => []

/-- Lines 37-40: the `part2` entry appended when `url_mismatch` is truthy
and `storymap_url_2` is truthy. -/
def part2Entry (m : Bool) (o : Option String) : List (String × String) :=
  if m then
    match o with
    | some u => if !u.isEmpty then [("part2", u)] else []
    | none => []
  else []

/-- The worklist built per record by `scrape_storymaps` (lines 29-40):
`part1` from `storymap_url` when truthy; then `part2` from
`storymap_url_2` when `url_mismatch` is truthy and the URL is truthy. -/
def urls_to_process (r : ScrapeRecord) : List (String × String) :=
  part1Entry r.storymap_url ++ part2Entry r.url_mismatch r.storymap_url_2

/-- `os.path.join(student_dir, f"LABEL.png")` under the fixed archive
root. -/
def output_path (student label : String) : String :=
  "processing/storymaps_archive/" ++ student ++ "/" ++ label ++ ".png"

/-- The observable state of a screenshotter run: the set of existing
files (as a list of paths), the navigations performed (`page.goto`), and
the paths written by `page.screenshot`. -/
structure ScrapeState where
  fs : List String
  navs : List (String × String)
  writes : List String
  deriving DecidableEq, Repr

/-- The body of the `for label, url in urls_to_process` loop
(lines 42-70): skip when the target exists, else navigate and — when the
navigation/capture does not raise (`ok url`) — write the screenshot.  The
per-URL `except` swallows failures. -/
def scrapePair (ok : String → Bool) (student : String) (st : ScrapeState)
    (p : String × String) : ScrapeState :=
  let path := output_path student p.1
  if path ∈ st.fs then st
  else
    let st1 := { st with navs := st.navs ++ [p] }
    if ok p.2 then { st1 with fs := st1.fs ++ [path], writes := st1.writes ++ [path] }
    else st1

/-- The body of the `for student_record in data` loop (lines 20-70):
records with a falsy `student` are skipped entirely. -/
def scrapeRecordStep (ok : String → Bool) (st : ScrapeState) (r : ScrapeRecord) : ScrapeState :=
  match r.student with
  | none => st
  | some s =>
    if s.isEmpty then st
    else (urls_to_process r).foldl (scrapePair ok s) st

/-- `scrape_storymaps` of `batch_scrape_storymaps.py` on the record
array, the initial file system, and a success oracle for navigations. -/
def scrape_storymaps (ok : String → Bool) (data : List ScrapeRecord)
    (fs0 : List String) : ScrapeState :=
  data.foldl (scrapeRecordStep ok) { fs := fs0, navs := [], writes := [] }

/-- The output paths a record would target (empty when the record is
skipped for a falsy `student`). -/
def recordPaths (r : ScrapeRecord) : List String :=
  match r.student with
  | none => []
  | some s =>
    if s.isEmpty then []
    else (urls_to_process r).map (fun p => output_path s p.1)

/-- A navigation oracle that always succeeds. -/
def alwaysOk : String → Bool := fun _ => true

/-- The biconditional asserted by the spec for `url_mismatch`, read on a
final record: the flag is set iff both URL values are Python-truthy and
their normalised forms differ. -/
def urlMismatchClaim (r : StudentRecord) : Prop :=
  r.url_mismatch = some true ↔
    (truthyOpt r.storymap_url = true ∧ truthyOpt r.storymap_url_2 = true ∧
     pyClean r.storymap_url ≠ pyClean r.storymap_url_2)

instance (r : StudentRecord) : Decidable (urlMismatchClaim r) := by
  unfold urlMismatchClaim; infer_instance

/-- The amended biconditional that the code actually maintains (one
Part-2 file per identifier): the flag is set iff both URLs have non-empty
normalised forms and those forms differ. -/
def urlMismatchNorm (r : StudentRecord) : Prop :=
  r.url_mismatch = some true ↔
    (pyClean r.storymap_url ≠ "" ∧ pyClean r.storymap_url_2 ≠ "" ∧
     pyClean r.storymap_url ≠ pyClean r.storymap_url_2)

instance (r : StudentRecord) : Decidable (urlMismatchNorm r) := by
  unfold urlMismatchNorm; infer_instance

/-- Part-1 fixture for C1: strict-format CSV with district "5" and URL
"https://a". -/
def c1p1 : P1File :=
  { filename := "s_1.csv"
    read := .plain [["Community District", "5"], ["StoryMap URL", "https://a"]] none }

/-- First Part-2 fixture for C1: redirect page to "https://b". -/
def c1p2a : P2File :=
  { filename := "s_1.html", content := some "<a href=\"https://b\">x</a>" }

/-- Second Part-2 fixture for C1, same identifier: redirect back to
"https://a". -/
def c1p2b : P2File :=
  { filename := "s_2.html", content := some "<a href=\"https://a\">x</a>" }

/-- The record the extractor produces on the C1 fixtures: `url_mismatch`
stuck at `true` although both URLs now agree. -/
def c1rec : StudentRecord :=
  { student := "s"
    community_district := some "5"
    storymap_url := some "https://a"
    needs_review := false
    part_1_completed := true
    storymap_url_2 := some "https://a"
    part_2_completed := some true
    url_mismatch := some true }

/-- Part-2 fixture for C2: a processed HTML file with no extractable URL
for an identifier that has no Part-1 record. -/
def c2p2 : P2File := { filename := "t_1.html", content := some "hello" }

/-- Part-1 fixture for C3: a URL cell holding "/" — a non-empty string
whose normalised form is empty. -/
def c3p1 : P1File :=
  { filename := "u_1.csv"
    read := .plain [["Community District", "3"], ["StoryMap URL", "/"]] none }

/-- Part-2 fixture for C3: redirect page to "https://x". -/
def c3p2 : P2File :=
  { filename := "u_1.html", content := some "<a href=\"https://x\">go</a>" }

/-- The Part-1 record on the C3 fixture: `storymap_url` is the non-empty
string "/". -/
def c3rec : StudentRecord :=
  { student := "u"
    community_district := some "3"
    storymap_url := some "/"
    needs_review := false
    part_1_completed := true }

/-- The final record on the C3 fixtures: Part 2 replaced the non-empty
Part-1 value "/". -/
def c3rec2 : StudentRecord :=
  { student := "u"
    community_district := some "3"
    storymap_url := some "https://x"
    needs_review := false
    part_1_completed := true
    storymap_url_2 := some "https://x"
    part_2_completed := some true }

/-- Screenshotter fixture for C4: no primary URL, `url_mismatch` set,
secondary URL present. -/
def c4rec : ScrapeRecord :=
  { student := some "v", storymap_url := none,
    storymap_url_2 := some "https://x", url_mismatch := true }

/-- Second screenshotter fixture for C4: `url_mismatch` set but the
secondary URL is the empty string. -/
def c4rec2 : ScrapeRecord :=
  { student := some "w", storymap_url := some "https://y",
    storymap_url_2 := some "", url_mismatch := true }

/-- The CSV rows of the C6 example from the spec. -/
def c6rows : List (List String) :=
  [["Community District", "", ""], ["StoryMap URL", "https://arcg.is/ABC123"]]

/-- Part-1 file carrying the C6 rows. -/
def c6p1 : P1File := { filename := "w_1.csv", read := .plain c6rows none }

/-- The record produced from the C6 rows. -/
def c6rec : StudentRecord :=
  { student := "w"
    community_district := none
    storymap_url := some "https://arcg.is/ABC123"
    needs_review := true
    part_1_completed := true }

/-- The C7 example HTML: a meta-refresh redirect and no anchor tag. -/
def c7html : String :=
  "<meta http-equiv=\"Refresh\" content=\"0; url=https://arcg.is/XYZ789\">"

/-- An HTML fragment whose anchor regex matches, used to witness the
anchor-priority hypothesis of C7. -/
def c7anchorHtml : String := "<a href=\"https://z\">"

/-- Screenshotter fixture for C8: one record with one URL. -/
def c8rec : ScrapeRecord :=
  { student := some "x", storymap_url := some "https://m",
    storymap_url_2 := none, url_mismatch := false }

/-- The target path of the C8 fixture. -/
def c8path : String := output_path "x" "part1"

/-- A hidden Part-1 file (name starts with "."). -/
def hiddenP1 : P1File := { filename := ".DS_Store", read := .failRead none }

/-- A Part-2 file whose name does not end in ".html". -/
def strayP2 : P2File := { filename := "t_notes.txt", content := some "<a href=\"https://q\">q</a>" }

/-- The keys of the records dict, in insertion order. -/
def keysOf (l : List (String × StudentRecord)) : List String :=
  l.map Prod.fst

/-- The shape of a record never touched by a Part-2 event: the five
Part-2 keys are absent from the dict. -/
def part1Shape (r : StudentRecord) : Prop :=
  r.storymap_url_2 = none ∧ r.part_2_completed = none ∧ r.url_mismatch = none ∧
    r.part_2_error = none ∧ r.note = none

instance (r : StudentRecord) : Decidable (part1Shape r) := by
  unfold part1Shape; infer_instance

/-- The `storymap_url` value of the record at a key, when that key is
present. -/
def smUrlAt (id : String) (st : ExtractState) : Option (Option String) :=
  (lookupRec id st.records).map StudentRecord.storymap_url

/-- How many records of an output array carry a given `student` value. -/
def countStudent (id : String) (l : List StudentRecord) : Nat :=
  l.countP (fun r => r.student == id)

/-- The record produced from the C1 Part-1 fixture alone. -/
def c1p1rec : StudentRecord :=
  { student := "s"
    community_district := some "5"
    storymap_url := some "https://a"
    needs_review := false
    part_1_completed := true }

/-- The record after the C1 Part-1 fixture and the first Part-2 fixture
only: a genuine mismatch. -/
def c1wrec : StudentRecord :=
  { student := "s"
    community_district := some "5"
    storymap_url := some "https://a"
    needs_review := false
    part_1_completed := true
    storymap_url_2 := some "https://b"
    part_2_completed := some true
    url_mismatch := some true }

/-- A screenshotter state whose file system already holds the C8 target. -/
def c8st : ScrapeState := { fs := [c8path], navs := [], writes := [] }

/-- The worklist pair of the C8 fixture. -/
def c8pair : String × String := ("part1", "https://m")

/-- Well-formedness of the records dict maintained by `process_files`:
keys are pairwise distinct (it models a dict) and every stored record's
`student` field equals its key. -/
def goodState (st : ExtractState) : Prop :=
  (keysOf st.records).Nodup ∧ ∀ pr ∈ st.records, pr.2.student = pr.1

/-! ### Association-list lemmas for the records dict -/

theorem lookupRec_upsert_self (k : String) (v : StudentRecord)
    (l : List (String × StudentRecord)) : lookupRec k (upsert k v l) = some v := by
  induction l with
  | nil => simp [upsert, lookupRec]
  | cons p rest ih =>
    obtain ⟨k', v'⟩ := p
    by_cases h : k' = k
    · subst h; simp [upsert, lookupRec]
    · simp [upsert, lookupRec, h, ih]

theorem lookupRec_upsert_ne {id k : String} (v : StudentRecord)
    (l : List (String × StudentRecord)) (h : id ≠ k) :
    lookupRec id (upsert k v l) = lookupRec id l := by
  have h' : ¬ k = id := fun hh => h hh.symm
  induction l with
  | nil => simp [upsert, lookupRec, h']
  | cons p rest ih =>
    obtain ⟨k', v'⟩ := p
    by_cases hk : k' = k
    · subst hk; simp [upsert, lookupRec, h']
    · simp only [upsert, if_neg hk, lookupRec]
      rw [ih]

theorem mem_upsert {pr : String × StudentRecord} {k : String} {v : StudentRecord}
    {l : List (String × StudentRecord)} (h : pr ∈ upsert k v l) :
    pr = (k, v) ∨ pr ∈ l := by
  induction l with
  | nil => simpa [upsert] using h
  | cons p rest ih =>
    obtain ⟨k', v'⟩ := p
    by_cases hk : k' = k
    · subst hk
      simp only [upsert, if_pos rfl] at h
      rcases List.mem_cons.mp h with h1 | h1
      · exact Or.inl h1
      · exact Or.inr (List.mem_cons_of_mem _ h1)
    · simp only [upsert, if_neg hk] at h
      rcases List.mem_cons.mp h with h1 | h1
      · exact Or.inr (List.mem_cons.mpr (Or.inl h1))
      · rcases ih h1 with h2 | h2
        · exact Or.inl h2
        · exact Or.inr (List.mem_cons_of_mem _ h2)

theorem mem_keys_upsert {id k : String} {v : StudentRecord}
    {l : List (String × StudentRecord)} :
    id ∈ keysOf (upsert k v l) ↔ id = k ∨ id ∈ keysOf l := by
  induction l with
  | nil => simp [upsert, keysOf]
  | cons p rest ih =>
    obtain ⟨k', v'⟩ := p
    by_cases hk : k' = k
    · subst hk; simp [upsert, keysOf]
    · have ihu : id ∈ keysOf (upsert k v rest) ↔ id = k ∨ id ∈ keysOf rest := ih
      simp only [upsert, if_neg hk, keysOf, List.map_cons, List.mem_cons] at *
      tauto

theorem nodup_keys_upsert {k : String} {v : StudentRecord}
    {l : List (String × StudentRecord)} (h : (keysOf l).Nodup) :
    (keysOf (upsert k v l)).Nodup := by
  induction l with
  | nil => simp [upsert, keysOf]
  | cons p rest ih =>
    obtain ⟨k', v'⟩ := p
    simp only [keysOf, List.map_cons, List.nodup_cons] at h
    obtain ⟨hnot, hrest⟩ := h
    by_cases hk : k' = k
    · subst hk
      simp only [upsert, if_pos rfl, if_true, keysOf, List.map_cons, List.nodup_cons]
      exact ⟨by simpa [keysOf] using hnot, by simpa [keysOf] using hrest⟩
    · simp only [upsert, if_neg hk, keysOf, List.map_cons, List.nodup_cons]
      refine ⟨fun hmem => ?_, ih (by simpa [keysOf] using hrest)⟩
      rcases mem_keys_upsert.mp
          (show k' ∈ keysOf (upsert k v rest) by simpa [keysOf] using hmem) with h1 | h1
      · exact hk h1
      · exact hnot (by simpa [keysOf] using h1)

theorem lookupRec_mem {id : String} {r : StudentRecord}
    {l : List (String × StudentRecord)} (h : lookupRec id l = some r) :
    (id, r) ∈ l := by
  induction l with
  | nil => simp [lookupRec] at h
  | cons p rest ih =>
    obtain ⟨k', v'⟩ := p
    by_cases hk : k' = id
    · subst hk
      simp [lookupRec] at h
      subst h
      exact List.mem_cons_self _ _
    · simp only [lookupRec, if_neg hk] at h
      exact List.mem_cons_of_mem _ (ih h)

theorem lookup_some_mem_keys {id : String} {r : StudentRecord}
    {l : List (String × StudentRecord)} (h : lookupRec id l = some r) :
    id ∈ keysOf l :=
  List.mem_map.mpr ⟨(id, r), lookupRec_mem h, rfl⟩

theorem lookup_eq_none_of_notin {id : String} {l : List (String × StudentRecord)}
    (h : id ∉ keysOf l) : lookupRec id l = none := by
  induction l with
  | nil => rfl
  | cons p rest ih =>
    obtain ⟨k', v'⟩ := p
    simp only [keysOf, List.map_cons, List.mem_cons] at h
    push_neg at h
    simp only [lookupRec]
    rw [if_neg (fun hh => h.1 hh.symm)]
    exact ih (by simpa [keysOf] using h.2)

/-! ### Step lemmas for the two extraction loops -/

theorem p1Step_skip {st : ExtractState} {f : P1File} (h : skip1 f = true) :
    p1Step st f = st := by
  simp [p1Step, h]

theorem p1Step_proc {st : ExtractState} {f : P1File} (h : skip1 f = false) :
    p1Step st f =
      { records := upsert (studentOf f.filename) (p1Record f) st.records
        log := st.log ++ p1Logs f } := by
  simp [p1Step, h]

theorem p2Step_skip {st : ExtractState} {f : P2File} (h : skip2 f = true) :
    p2Step st f = st := by
  simp [p2Step, h]

theorem p2Step_proc {st : ExtractState} {f : P2File} (h : skip2 f = false) :
    p2Step st f =
      { records :=
          match (p2Update f (lookupRec (studentOf f.filename) st.records)).1 with
          | some r => upsert (studentOf f.filename) r st.records
          | none => st.records
        log := st.log ++ (p2Update f (lookupRec (studentOf f.filename) st.records)).2 } := by
  simp [p2Step, h]

theorem lookupRec_p2Step_ne {id : String} {st : ExtractState} {f : P2File}
    (h : id ≠ studentOf f.filename) :
    lookupRec id (p2Step st f).records = lookupRec id st.records := by
  cases hs : skip2 f with
  | true => rw [p2Step_skip hs]
  | false =>
    rw [p2Step_proc hs]
    cases hr : (p2Update f (lookupRec (studentOf f.filename) st.records)).1 with
    | none => simp [hr]
    | some r => simp [hr, lookupRec_upsert_ne _ _ h]

theorem p1Ids_cons_skip {f : P1File} {fs : List P1File} (h : skip1 f = true) :
    p1Ids (f :: fs) = p1Ids fs := by
  simp [p1Ids, h]

theorem p1Ids_cons_proc {f : P1File} {fs : List P1File} (h : skip1 f = false) :
    p1Ids (f :: fs) = studentOf f.filename :: p1Ids fs := by
  simp [p1Ids, h]

theorem p2Ids_cons_skip {f : P2File} {fs : List P2File} (h : skip2 f = true) :
    p2Ids (f :: fs) = p2Ids fs := by
  simp [p2Ids, p2Processed, h]

theorem p2Ids_cons_proc {f : P2File} {fs : List P2File} (h : skip2 f = false) :
    p2Ids (f :: fs) = studentOf f.filename :: p2Ids fs := by
  simp [p2Ids, p2Processed, h]

theorem p2SuccessIds_cons_skip {f : P2File} {fs : List P2File} (h : skip2 f = true) :
    p2SuccessIds (f :: fs) = p2SuccessIds fs := by
  simp [p2SuccessIds, p2Processed, h]

theorem p2SuccessIds_cons_fail {f : P2File} {fs : List P2File} (h : skip2 f = false)
    (hu : truthyOpt (extract_url_from_html f.content) = false) :
    p2SuccessIds (f :: fs) = p2SuccessIds fs := by
  simp [p2SuccessIds, p2Processed, h, hu]

theorem p2SuccessIds_cons_ok {f : P2File} {fs : List P2File} (h : skip2 f = false)
    (hu : truthyOpt (extract_url_from_html f.content) = true) :
    p2SuccessIds (f :: fs) = studentOf f.filename :: p2SuccessIds fs := by
  simp [p2SuccessIds, p2Processed, h, hu]

theorem p2fold_lookup_notin : ∀ (fs : List P2File) (st : ExtractState) (id : String),
    id ∉ p2Ids fs →
    lookupRec id (fs.foldl p2Step st).records = lookupRec id st.records := by
  intro fs
  induction fs with
  | nil => intro st id _; rfl
  | cons f fs ih =>
    intro st id h
    cases hs : skip2 f with
    | true =>
      rw [List.foldl_cons, p2Step_skip hs]
      exact ih st id (by rwa [p2Ids_cons_skip hs] at h)
    | false =>
      rw [p2Ids_cons_proc hs] at h
      simp only [List.mem_cons] at h
      push_neg at h
      rw [List.foldl_cons, ih _ id h.2, lookupRec_p2Step_ne h.1]

theorem p1Record_shape (f : P1File) : part1Shape (p1Record f) :=
  ⟨rfl, rfl, rfl, rfl, rfl⟩

theorem p1fold_shape : ∀ (fs : List P1File) (st : ExtractState),
    (∀ pr ∈ st.records, part1Shape pr.2) →
    ∀ pr ∈ (fs.foldl p1Step st).records, part1Shape pr.2 := by
  intro fs
  induction fs with
  | nil => intro st h; exact h
  | cons f fs ih =>
    intro st h
    rw [List.foldl_cons]
    apply ih
    intro pr hpr
    cases hs : skip1 f with
    | true =>
      rw [p1Step_skip hs] at hpr
      exact h pr hpr
    | false =>
      simp only [p1Step_proc hs] at hpr
      rcases mem_upsert hpr with h1 | h1
      · rw [h1]; exact p1Record_shape f
      · exact h pr h1

/-! ### Claim C6 -/

/-- C6: on the two-row table `[["Community District", "", ""],
["StoryMap URL", "https://arcg.is/ABC123"]]` the row extractor returns
`community_district = None`, `storymap_url = "https://arcg.is/ABC123"`
and `issues = true`, and the record built from a Part-1 file with these
rows has `needs_review = true`. -/
theorem c6_example_rows :
    extract_from_rows c6rows = (none, some "https://arcg.is/ABC123", true) ∧
    outputRecords (p1State [c6p1]) = [c6rec] ∧
    c6rec.community_district = none ∧
    c6rec.storymap_url = some "https://arcg.is/ABC123" ∧
    c6rec.needs_review = true := by
  refine ⟨by decide, by decide, rfl, rfl, rfl⟩

/-! ### Claim C7 -/

/-- C7: the HTML URL extractor tries the anchor `href` pattern first and
falls back to the meta-refresh `url=` pattern only when no anchor
matched; on the example meta-refresh file (which has no anchor) it
returns exactly `"https://arcg.is/XYZ789"`, and a read error yields no
URL instead of an exception. -/
theorem c7_html_extractor :
    (∀ c u, scanAnchor c.data = some u → extract_url_from_html (some c) = some u) ∧
    (∀ c, scanAnchor c.data = none → extract_url_from_html (some c) = scanMeta c.data) ∧
    scanAnchor c7html.data = none ∧
    extract_url_from_html (some c7html) = some "https://arcg.is/XYZ789" ∧
    extract_url_from_html none = none := by
  refine ⟨?_, ?_, by decide, by decide, rfl⟩
  · intro c u h
    simp [extract_url_from_html, h]
  · intro c h
    simp [extract_url_from_html, h]

/-- Witness for C7: the two conditional parts applied at concrete
inputs — an anchor page returns its `href` target, and the anchor-free
meta-refresh page falls through to the meta scanner. -/
theorem c7_html_extractor_witness :
    extract_url_from_html (some c7anchorHtml) = some "https://z" ∧
    extract_url_from_html (some c7html) = scanMeta c7html.data :=
  ⟨c7_html_extractor.1 c7anchorHtml "https://z" (by decide),
   c7_html_extractor.2.1 c7html (by decide)⟩

/-! ### Claim C9 -/

/-- C9: a record whose identifier has no processed Part-2 file carries
none of the Part-2 keys: `storymap_url_2`, `part_2_completed`,
`url_mismatch`, `part_2_error` and `note` are all absent from the dict
(they are added only by a Part-2 event). -/
theorem c9_part1_only_shape : ∀ (fs1 : List P1File) (fs2 : List P2File) (id : String)
    (r : StudentRecord), id ∉ p2Ids fs2 →
    lookupRec id (process_files (some fs1) (some fs2)).records = some r →
    part1Shape r := by
  intro fs1 fs2 id r hnot hl
  have he : process_files (some fs1) (some fs2) = fs2.foldl p2Step (p1State fs1) := rfl
  rw [he, p2fold_lookup_notin fs2 _ id hnot] at hl
  exact p1fold_shape fs1 { records := [], log := [] }
    (fun pr hpr => absurd hpr (List.not_mem_nil pr)) (id, r) (lookupRec_mem hl)

/-- Witness for C9: the record of identifier "w", built from a Part-1
file with no Part-2 file at all, has all five Part-2 keys absent. -/
theorem c9_part1_only_shape_witness : part1Shape c6rec :=
  c9_part1_only_shape [c6p1] [] "w" c6rec (by decide) (by decide)

/-! ### Counterexamples to C1-C5 -/

/-- C1 counterexample: with one Part-1 file (URL "https://a") and two
Part-2 files for the same identifier "s" (first "https://b", then
"https://a"), the final record has `url_mismatch = true` while
`storymap_url` and `storymap_url_2` are both "https://a" with equal
normalised forms — the claimed biconditional fails. -/
theorem c1_counterexample :
    outputRecords (process_files (some [c1p1]) (some [c1p2a, c1p2b])) = [c1rec] ∧
    ¬ urlMismatchClaim c1rec := by
  exact ⟨by decide, by decide⟩

/-- C2 counterexample: identifier "t" is seen in the Part-2 directory
(file "t_1.html" is processed) but its HTML yields no URL and it has no
Part-1 record, so the output array contains no record at all for it. -/
theorem c2_counterexample :
    p2Ids [c2p2] = ["t"] ∧
    outputRecords (process_files (some []) (some [c2p2])) = [] := by
  exact ⟨by decide, by decide⟩

/-- C3 counterexample: the Part-1 record of identifier "u" has the
non-empty `storymap_url` value "/", yet processing its Part-2 file
replaces `storymap_url` with "https://x" (the code tests emptiness of
the normalised URL, not of the stored value). -/
theorem c3_counterexample :
    lookupRec "u" (p1State [c3p1]).records = some c3rec ∧
    c3rec.storymap_url = some "/" ∧
    some "/" ≠ (some "" : Option String) ∧
    lookupRec "u" (process_files (some [c3p1]) (some [c3p2])).records = some c3rec2 ∧
    c3rec2.storymap_url = some "https://x" := by
  exact ⟨by decide, rfl, by decide, by decide, rfl⟩

/-- C4 counterexample: a record with no `storymap_url` produces a
worklist with no `part1` entry at all, and a record with
`url_mismatch = true` but an empty `storymap_url_2` produces no `part2`
entry — so the worklist neither always contains a `part1` entry nor
contains a `part2` entry exactly when `url_mismatch` is true. -/
theorem c4_counterexample :
    urls_to_process c4rec = [("part2", "https://x")] ∧
    c4rec.url_mismatch = true ∧
    urls_to_process c4rec2 = [("part1", "https://y")] ∧
    c4rec2.url_mismatch = true := by
  exact ⟨rfl, rfl, rfl, rfl⟩

/-- C5 counterexample: when the Part-2 directory is absent the extractor
logs nothing at all (empty log), while an absent Part-1 directory logs
the CRITICAL line — the claimed symmetric logging does not hold. -/
theorem c5_counterexample :
    (process_files (some []) none).log = [] ∧
    (process_files none (some [])).log = [critMsg] := by
  exact ⟨rfl, rfl⟩

/-! ### Claim C3 (amended): Part-1 URLs with non-empty normalised form
are never overwritten by Part 2 -/

theorem mergeUrls_keeps_url {r : StudentRecord} {s u : String}
    (h : pyClean r.storymap_url ≠ "") :
    (mergeUrls s r u).1.storymap_url = r.storymap_url := by
  unfold mergeUrls
  dsimp only
  split_ifs with h1 h2
  · exfalso
    have he : (pyClean r.storymap_url).isEmpty = true := (Bool.and_eq_true _ _).mp h1 |>.1
    exact h ((String.isEmpty_iff _).mp he)
  · rfl
  · rfl

theorem p2Update_some_url (f : P2File) (r : StudentRecord)
    (h : pyClean r.storymap_url ≠ "") :
    ∃ r2, (p2Update f (some r)).1 = some r2 ∧ r2.storymap_url = r.storymap_url := by
  unfold p2Update
  cases ht : truthyOpt (extract_url_from_html f.content) with
  | true =>
    simp only [ht, Bool.not_true, Bool.false_eq_true, if_false]
    exact ⟨_, rfl, mergeUrls_keeps_url h⟩
  | false =>
    simp only [ht, Bool.not_false, if_true]
    exact ⟨_, rfl, rfl⟩

theorem p2Step_keeps_url {st : ExtractState} {f : P2File} {id : String} {r : StudentRecord}
    (hl : lookupRec id st.records = some r) (h : pyClean r.storymap_url ≠ "") :
    ∃ r', lookupRec id (p2Step st f).records = some r' ∧
      r'.storymap_url = r.storymap_url := by
  cases hs : skip2 f with
  | true => exact ⟨r, by rw [p2Step_skip hs]; exact hl, rfl⟩
  | false =>
    by_cases hid : id = studentOf f.filename
    · subst hid
      rw [p2Step_proc hs, hl]
      obtain ⟨r2, h2, hurl⟩ := p2Update_some_url f r h
      exact ⟨r2, by simp [h2, lookupRec_upsert_self], hurl⟩
    · exact ⟨r, by rw [lookupRec_p2Step_ne hid]; exact hl, rfl⟩

theorem p2fold_keeps_url : ∀ (fs : List P2File) (st : ExtractState) (id : String)
    (r : StudentRecord),
    lookupRec id st.records = some r → pyClean r.storymap_url ≠ "" →
    ∃ r', lookupRec id (fs.foldl p2Step st).records = some r' ∧
      r'.storymap_url = r.storymap_url := by
  intro fs
  induction fs with
  | nil => intro st id r hl _; exact ⟨r, hl, rfl⟩
  | cons f fs ih =>
    intro st id r hl h
    obtain ⟨r1, hl1, hu1⟩ := p2Step_keeps_url hl h
    obtain ⟨r2, hl2, hu2⟩ := ih (p2Step st f) id r1 hl1 (by rwa [hu1])
    exact ⟨r2, by rw [List.foldl_cons]; exact hl2, by rw [hu2, hu1]⟩

/-- C3 (amended): for every student record created by the Part-1 phase
whose `storymap_url` has a non-empty normalised form (trim, strip
trailing slashes, lowercase), processing any sequence of Part-2 HTML
files leaves `storymap_url` unchanged; Part 2 may replace `storymap_url`
only when the normalised Part-1 value was empty (the code compares
`u1_clean`, so a non-empty raw value like "/" that normalises to the
empty string is also replaced). -/
theorem c3_part1_url_frame : ∀ (fs1 : List P1File) (fs2 : List P2File) (id : String)
    (r : StudentRecord),
    lookupRec id (p1State fs1).records = some r →
    pyClean r.storymap_url ≠ "" →
    smUrlAt id (process_files (some fs1) (some fs2)) = some r.storymap_url := by
  intro fs1 fs2 id r hl h
  obtain ⟨r', hl', hu⟩ := p2fold_keeps_url fs2 (p1State fs1) id r hl h
  have he : process_files (some fs1) (some fs2) = fs2.foldl p2Step (p1State fs1) := rfl
  rw [smUrlAt, he, hl', Option.map_some', hu]

/-- Witness for C3 (amended): identifier "s" has Part-1 URL "https://a"
(non-empty normalised form); after processing a Part-2 file carrying the
different URL "https://b", the primary URL is unchanged. -/
theorem c3_part1_url_frame_witness :
    smUrlAt "s" (process_files (some [c1p1]) (some [c1p2a])) = some c1p1rec.storymap_url :=
  c3_part1_url_frame [c1p1] [c1p2a] "s" c1p1rec (by decide) (by decide)

/-! ### Claim C1 (amended): the url_mismatch biconditional under one
Part-2 file per identifier -/

theorem isEmpty_eq_false_iff (s : String) : s.isEmpty = false ↔ s ≠ "" := by
  cases h : s.isEmpty with
  | true =>
    have hs : s = "" := (String.isEmpty_iff s).mp h
    subst hs
    simp at h ⊢
  | false =>
    simp only [true_iff]
    intro heq
    subst heq
    exact absurd h (by decide)

theorem urlMismatchNorm_of_shape {r : StudentRecord} (h : part1Shape r) :
    urlMismatchNorm r := by
  obtain ⟨h1, _, h3, _, _⟩ := h
  unfold urlMismatchNorm
  rw [h3, h1]
  simp [pyClean]

theorem part2OnlyRecord_norm (s u : String) : urlMismatchNorm (part2OnlyRecord s u) := by
  unfold urlMismatchNorm part2OnlyRecord
  simp

theorem mergeUrls_norm {r : StudentRecord} {s u : String}
    (_hA : urlMismatchNorm r) (hm : r.url_mismatch = none) :
    urlMismatchNorm (mergeUrls s r u).1 := by
  unfold mergeUrls
  dsimp only
  split_ifs with h1 h2
  · unfold urlMismatchNorm
    dsimp only
    rw [hm]
    simp
  · unfold urlMismatchNorm
    dsimp only
    simp only [Option.some.injEq, true_iff, iff_true]
    rw [Bool.and_eq_true, Bool.and_eq_true] at h2
    obtain ⟨⟨ha, hb⟩, hc⟩ := h2
    rw [Bool.not_eq_true'] at ha hb
    exact ⟨(isEmpty_eq_false_iff _).mp ha, (isEmpty_eq_false_iff _).mp hb,
      bne_iff_ne.mp hc⟩
  · unfold urlMismatchNorm
    dsimp only
    rw [hm]
    simp only [false_iff, reduceCtorEq]
    rintro ⟨ha, hb, hc⟩
    exact h2 (by
      rw [Bool.and_eq_true, Bool.and_eq_true]
      refine ⟨⟨?_, ?_⟩, bne_iff_ne.mpr hc⟩
      · rw [Bool.not_eq_true', isEmpty_eq_false_iff]; exact ha
      · rw [Bool.not_eq_true', isEmpty_eq_false_iff]; exact hb)

theorem p2Update_norm {f : P2File} {r r2 : StudentRecord}
    (hA : urlMismatchNorm r) (hm : r.url_mismatch = none)
    (h : (p2Update f (some r)).1 = some r2) : urlMismatchNorm r2 := by
  unfold p2Update at h
  cases ht : truthyOpt (extract_url_from_html f.content) with
  | false =>
    simp only [ht, Bool.not_false, if_true] at h
    injection h with h
    rw [← h]
    exact hA
  | true =>
    simp only [ht, Bool.not_true, Bool.false_eq_true, if_false] at h
    injection h with h
    rw [← h]
    exact mergeUrls_norm hA hm

theorem p2Update_none_norm {f : P2File} {r2 : StudentRecord}
    (h : (p2Update f none).1 = some r2) : urlMismatchNorm r2 := by
  unfold p2Update at h
  cases ht : truthyOpt (extract_url_from_html f.content) with
  | false => simp [ht] at h
  | true =>
    simp only [ht, Bool.not_true, Bool.false_eq_true, if_false] at h
    injection h with h
    rw [← h]
    exact part2OnlyRecord_norm _ _

theorem p2fold_mismatch_norm : ∀ (fs : List P2File) (st : ExtractState),
    (p2Ids fs).Nodup →
    (∀ pr ∈ st.records, urlMismatchNorm pr.2) →
    (∀ pr ∈ st.records, pr.1 ∈ p2Ids fs → pr.2.url_mismatch = none) →
    ∀ pr ∈ (fs.foldl p2Step st).records, urlMismatchNorm pr.2 := by
  intro fs
  induction fs with
  | nil => intro st _ hA _; exact hA
  | cons f fs ih =>
    intro st hnd hA hB
    rw [List.foldl_cons]
    cases hs : skip2 f with
    | true =>
      rw [p2Step_skip hs]
      exact ih st (by rwa [p2Ids_cons_skip hs] at hnd) hA
        (fun pr hpr hin => hB pr hpr (by rw [p2Ids_cons_skip hs]; exact hin))
    | false =>
      rw [p2Ids_cons_proc hs] at hnd
      rw [List.nodup_cons] at hnd
      refine ih (p2Step st f) hnd.2 ?_ ?_
      · intro pr hpr
        simp only [p2Step_proc hs] at hpr
        cases hcur : lookupRec (studentOf f.filename) st.records with
        | some r =>
          have hmem := lookupRec_mem hcur
          have hmnone : r.url_mismatch = none :=
            hB (studentOf f.filename, r) hmem
              (by rw [p2Ids_cons_proc hs]; exact List.mem_cons_self _ _)
          have hAr := hA (studentOf f.filename, r) hmem
          rw [hcur] at hpr
          cases hres : (p2Update f (some r)).1 with
          | none =>
            rw [hres] at hpr
            exact hA pr hpr
          | some r2 =>
            rw [hres] at hpr
            rcases mem_upsert hpr with h1 | h1
            · rw [h1]
              exact p2Update_norm hAr hmnone hres
            · exact hA pr h1
        | none =>
          rw [hcur] at hpr
          cases hres : (p2Update f none).1 with
          | none =>
            rw [hres] at hpr
            exact hA pr hpr
          | some r2 =>
            rw [hres] at hpr
            rcases mem_upsert hpr with h1 | h1
            · rw [h1]
              exact p2Update_none_norm hres
            · exact hA pr h1
      · intro pr hpr hin
        simp only [p2Step_proc hs] at hpr
        cases hres : (p2Update f (lookupRec (studentOf f.filename) st.records)).1 with
        | none =>
          rw [hres] at hpr
          exact hB pr hpr (by rw [p2Ids_cons_proc hs]; exact List.mem_cons_of_mem _ hin)
        | some r2 =>
          rw [hres] at hpr
          rcases mem_upsert hpr with h1 | h1
          · exfalso
            apply hnd.1
            rw [← show pr.1 = studentOf f.filename from by rw [h1]]
            exact hin
          · exact hB pr h1 (by rw [p2Ids_cons_proc hs]; exact List.mem_cons_of_mem _ hin)

/-- C1 (amended): when at most one Part-2 HTML file is processed per
student identifier, every output record satisfies the biconditional:
`url_mismatch = true` iff the normalised forms (trimmed,
trailing-slash-stripped, lowercased) of `storymap_url` and
`storymap_url_2` are both non-empty and differ.  Without that
restriction the flag — which the code never clears — can survive a later
Part-2 file that overwrites `storymap_url_2` with a URL equal to the
primary. -/
theorem c1_url_mismatch_amended : ∀ (fs1 : List P1File) (fs2 : List P2File),
    (p2Ids fs2).Nodup →
    ∀ r ∈ outputRecords (process_files (some fs1) (some fs2)), urlMismatchNorm r := by
  intro fs1 fs2 hnd r hr
  have he : process_files (some fs1) (some fs2) = fs2.foldl p2Step (p1State fs1) := rfl
  rw [outputRecords, he] at hr
  obtain ⟨pr, hpr, hpr2⟩ := List.mem_map.mp hr
  have hshape : ∀ pr ∈ (p1State fs1).records, part1Shape pr.2 :=
    p1fold_shape fs1 { records := [], log := [] }
      (fun pr hpr => absurd hpr (List.not_mem_nil pr))
  rw [← hpr2]
  exact p2fold_mismatch_norm fs2 (p1State fs1) hnd
    (fun pr hpr => urlMismatchNorm_of_shape (hshape pr hpr))
    (fun pr hpr _ => (hshape pr hpr).2.2.1) pr hpr

/-- Witness for C1 (amended): the single-Part-2-file run on the C1
fixtures produces a record with a genuine mismatch, and the biconditional
holds on it. -/
theorem c1_url_mismatch_amended_witness : urlMismatchNorm c1wrec :=
  c1_url_mismatch_amended [c1p1] [c1p2a] (by decide) c1wrec (by decide)

/-! ### Claim C2 (amended): exactly one record per identifier with an
extractable source -/

theorem mergeUrls_student (s : String) (r : StudentRecord) (u : String) :
    (mergeUrls s r u).1.student = r.student := by
  unfold mergeUrls
  dsimp only
  split_ifs <;> rfl

theorem p2Update_some_student {f : P2File} {r r2 : StudentRecord}
    (h : (p2Update f (some r)).1 = some r2) : r2.student = r.student := by
  unfold p2Update at h
  cases ht : truthyOpt (extract_url_from_html f.content) with
  | false =>
    simp only [ht, Bool.not_false, if_true] at h
    injection h with h
    rw [← h]
  | true =>
    simp only [ht, Bool.not_true, Bool.false_eq_true, if_false] at h
    injection h with h
    rw [← h]
    exact mergeUrls_student _ _ _

theorem p2Update_none_student {f : P2File} {r2 : StudentRecord}
    (h : (p2Update f none).1 = some r2) : r2.student = studentOf f.filename := by
  unfold p2Update at h
  cases ht : truthyOpt (extract_url_from_html f.content) with
  | false => simp [ht] at h
  | true =>
    simp only [ht, Bool.not_true, Bool.false_eq_true, if_false] at h
    injection h with h
    rw [← h]
    rfl

theorem p2Update_none_fail {f : P2File}
    (ht : truthyOpt (extract_url_from_html f.content) = false) :
    (p2Update f none).1 = none := by
  unfold p2Update
  simp [ht]

theorem p2Update_none_ok {f : P2File}
    (ht : truthyOpt (extract_url_from_html f.content) = true) :
    ∃ r2, (p2Update f none).1 = some r2 := by
  unfold p2Update
  simp only [ht, Bool.not_true, Bool.false_eq_true, if_false]
  exact ⟨_, rfl⟩

theorem goodState_p1Step {st : ExtractState} {f : P1File} (h : goodState st) :
    goodState (p1Step st f) := by
  cases hs : skip1 f with
  | true => rw [p1Step_skip hs]; exact h
  | false =>
    rw [p1Step_proc hs]
    refine ⟨nodup_keys_upsert h.1, ?_⟩
    intro pr hpr
    rcases mem_upsert hpr with h1 | h1
    · rw [h1]; rfl
    · exact h.2 pr h1

theorem goodState_p2Step {st : ExtractState} {f : P2File} (h : goodState st) :
    goodState (p2Step st f) := by
  cases hs : skip2 f with
  | true => rw [p2Step_skip hs]; exact h
  | false =>
    rw [p2Step_proc hs]
    cases hcur : lookupRec (studentOf f.filename) st.records with
    | some r =>
      have hst : r.student = studentOf f.filename := h.2 _ (lookupRec_mem hcur)
      cases hres : (p2Update f (some r)).1 with
      | none => exact ⟨h.1, h.2⟩
      | some r2 =>
        refine ⟨nodup_keys_upsert h.1, ?_⟩
        intro pr hpr
        rcases mem_upsert hpr with h1 | h1
        · rw [h1]
          rw [show ((studentOf f.filename, r2) : String × StudentRecord).2 = r2 from rfl]
          rw [p2Update_some_student hres, hst]
        · exact h.2 pr h1
    | none =>
      cases hres : (p2Update f none).1 with
      | none => exact ⟨h.1, h.2⟩
      | some r2 =>
        refine ⟨nodup_keys_upsert h.1, ?_⟩
        intro pr hpr
        rcases mem_upsert hpr with h1 | h1
        · rw [h1]
          exact p2Update_none_student hres
        · exact h.2 pr h1

theorem goodState_p1fold : ∀ (fs : List P1File) (st : ExtractState),
    goodState st → goodState (fs.foldl p1Step st) := by
  intro fs
  induction fs with
  | nil => intro st h; exact h
  | cons f fs ih => intro st h; exact ih _ (goodState_p1Step h)

theorem goodState_p2fold : ∀ (fs : List P2File) (st : ExtractState),
    goodState st → goodState (fs.foldl p2Step st) := by
  intro fs
  induction fs with
  | nil => intro st h; exact h
  | cons f fs ih => intro st h; exact ih _ (goodState_p2Step h)

theorem p1Step_records {st : ExtractState} {f : P1File} (hs : skip1 f = false) :
    (p1Step st f).records = upsert (studentOf f.filename) (p1Record f) st.records := by
  rw [p1Step_proc hs]

theorem p2Step_records {st : ExtractState} {f : P2File} (hs : skip2 f = false) :
    (p2Step st f).records =
      match (p2Update f (lookupRec (studentOf f.filename) st.records)).1 with
      | some r => upsert (studentOf f.filename) r st.records
      | none => st.records := by
  rw [p2Step_proc hs]

theorem p2Step_records_of_res {st : ExtractState} {f : P2File} {r2 : StudentRecord}
    (hs : skip2 f = false)
    (hres : (p2Update f (lookupRec (studentOf f.filename) st.records)).1 = some r2) :
    (p2Step st f).records = upsert (studentOf f.filename) r2 st.records := by
  rw [p2Step_records hs, hres]

theorem p2Step_records_of_none {st : ExtractState} {f : P2File} (hs : skip2 f = false)
    (hres : (p2Update f (lookupRec (studentOf f.filename) st.records)).1 = none) :
    (p2Step st f).records = st.records := by
  rw [p2Step_records hs, hres]

theorem keys_p1fold : ∀ (fs : List P1File) (st : ExtractState) (id : String),
    id ∈ keysOf (fs.foldl p1Step st).records ↔ id ∈ p1Ids fs ∨ id ∈ keysOf st.records := by
  intro fs
  induction fs with
  | nil => intro st id; simp [p1Ids]
  | cons f fs ih =>
    intro st id
    rw [List.foldl_cons]
    cases hs : skip1 f with
    | true => rw [p1Step_skip hs, p1Ids_cons_skip hs]; exact ih st id
    | false =>
      rw [ih (p1Step st f) id, p1Ids_cons_proc hs, p1Step_records hs, mem_keys_upsert]
      simp only [List.mem_cons]
      tauto

theorem keys_p2Step_mem {st : ExtractState} {f : P2File} (hs : skip2 f = false)
    (id : String) :
    id ∈ keysOf (p2Step st f).records ↔
      (truthyOpt (extract_url_from_html f.content) = true ∧ id = studentOf f.filename)
      ∨ id ∈ keysOf st.records := by
  cases hcur : lookupRec (studentOf f.filename) st.records with
  | some r =>
    have hks : studentOf f.filename ∈ keysOf st.records := lookup_some_mem_keys hcur
    cases hres : (p2Update f (some r)).1 with
    | none =>
      rw [p2Step_records_of_none hs (by rw [hcur]; exact hres)]
      constructor
      · exact Or.inr
      · rintro (⟨_, rfl⟩ | h)
        · exact hks
        · exact h
    | some r2 =>
      rw [p2Step_records_of_res hs (by rw [hcur]; exact hres), mem_keys_upsert]
      constructor
      · rintro (rfl | h)
        · exact Or.inr hks
        · exact Or.inr h
      · rintro (⟨_, rfl⟩ | h)
        · exact Or.inl rfl
        · exact Or.inr h
  | none =>
    cases ht : truthyOpt (extract_url_from_html f.content) with
    | false =>
      rw [p2Step_records_of_none hs (by rw [hcur]; exact p2Update_none_fail ht)]
      simp [ht]
    | true =>
      obtain ⟨r2, hres⟩ := p2Update_none_ok (f := f) ht
      rw [p2Step_records_of_res hs (by rw [hcur]; exact hres), mem_keys_upsert]
      simp [ht]

theorem keys_p2fold : ∀ (fs : List P2File) (st : ExtractState) (id : String),
    id ∈ keysOf (fs.foldl p2Step st).records ↔
      id ∈ p2SuccessIds fs ∨ id ∈ keysOf st.records := by
  intro fs
  induction fs with
  | nil => intro st id; simp [p2SuccessIds, p2Processed]
  | cons f fs ih =>
    intro st id
    rw [List.foldl_cons]
    cases hs : skip2 f with
    | true => rw [p2Step_skip hs, p2SuccessIds_cons_skip hs]; exact ih st id
    | false =>
      rw [ih (p2Step st f) id, keys_p2Step_mem hs id]
      cases ht : truthyOpt (extract_url_from_html f.content) with
      | true =>
        rw [p2SuccessIds_cons_ok hs ht]
        simp only [List.mem_cons, true_and]
        tauto
      | false =>
        rw [p2SuccessIds_cons_fail hs ht]
        simp only [Bool.false_eq_true, false_and, false_or]

theorem countStudent_keys : ∀ (l : List (String × StudentRecord)),
    (keysOf l).Nodup → (∀ pr ∈ l, pr.2.student = pr.1) → ∀ id : String,
    countStudent id (l.map Prod.snd) = if id ∈ keysOf l then 1 else 0 := by
  intro l
  induction l with
  | nil => intro _ _ id; simp [countStudent, keysOf]
  | cons p rest ih =>
    intro hnd hstud id
    obtain ⟨k, v⟩ := p
    simp only [keysOf, List.map_cons, List.nodup_cons] at hnd
    have hv : v.student = k := hstud (k, v) (List.mem_cons_self _ _)
    have ihr := ih (by simpa [keysOf] using hnd.2)
      (fun pr hpr => hstud pr (List.mem_cons_of_mem _ hpr)) id
    rw [countStudent] at ihr ⊢
    rw [List.map_cons, List.countP_cons, ihr, hv]
    by_cases hk : k = id
    · subst hk
      have hnot : k ∉ keysOf rest := by simpa [keysOf] using hnd.1
      rw [if_neg hnot]
      simp [keysOf]
    · have : (k == id) = false := by
        simp [hk]
      rw [this]
      simp only [Bool.false_eq_true, if_false, Nat.add_zero]
      have hmem : (id ∈ keysOf ((k, v) :: rest)) ↔ id ∈ keysOf rest := by
        simp only [keysOf, List.map_cons, List.mem_cons]
        constructor
        · rintro (rfl | h)
          · exact absurd rfl hk
          · exact h
        · exact Or.inr
      simp only [hmem]

/-- C2 (amended): exactly one record exists for every identifier seen in
a processed Part-1 file or in a processed Part-2 HTML file from which a
URL was extracted; identifiers whose only source is a Part-2 file with no
extractable URL get no record (see the counterexample). -/
theorem c2_unique_record_amended : ∀ (fs1 : List P1File) (fs2 : List P2File) (id : String),
    (id ∈ p1Ids fs1 ∨ id ∈ p2SuccessIds fs2) →
    countStudent id (outputRecords (process_files (some fs1) (some fs2))) = 1 := by
  intro fs1 fs2 id hid
  have he : process_files (some fs1) (some fs2) = fs2.foldl p2Step (p1State fs1) := rfl
  have hgood0 : goodState { records := [], log := [] } :=
    ⟨List.nodup_nil, fun pr hpr => absurd hpr (List.not_mem_nil pr)⟩
  have hgood1 : goodState (p1State fs1) := goodState_p1fold fs1 _ hgood0
  have hgood2 : goodState (fs2.foldl p2Step (p1State fs1)) := goodState_p2fold fs2 _ hgood1
  have hkey : id ∈ keysOf (fs2.foldl p2Step (p1State fs1)).records := by
    rw [keys_p2fold]
    rcases hid with h | h
    · right
      rw [p1State, keys_p1fold]
      exact Or.inl h
    · exact Or.inl h
  rw [he, outputRecords, countStudent_keys _ hgood2.1 hgood2.2 id, if_pos hkey]

/-- Witness for C2 (amended): identifier "w" comes from a processed
Part-1 file and has exactly one record in the output array. -/
theorem c2_unique_record_amended_witness :
    countStudent "w" (outputRecords (process_files (some [c6p1]) (some []))) = 1 :=
  c2_unique_record_amended [c6p1] [] "w" (Or.inl (by decide))

/-! ### Claim C4 (amended): worklist characterisation -/

theorem mem_part1Entry (o : Option String) (u : String) :
    ("part1", u) ∈ part1Entry o ↔ o = some u ∧ u ≠ "" := by
  cases o with
  | none => simp [part1Entry]
  | some a =>
    simp only [part1Entry]
    split_ifs with h
    · have ha : a ≠ "" := (isEmpty_eq_false_iff a).mp (by simpa using h)
      constructor
      · intro hm
        have hu : u = a := by
          have := List.mem_singleton.mp hm
          exact (Prod.mk.injEq _ _ _ _ ▸ this).2
        subst hu
        exact ⟨rfl, ha⟩
      · rintro ⟨hsome, _⟩
        injection hsome with hsome
        subst hsome
        exact List.mem_singleton.mpr rfl
    · have ha : a = "" := (String.isEmpty_iff a).mp (by
        cases hae : a.isEmpty
        · rw [hae] at h; simp at h
        · rfl)
      subst ha
      constructor
      · intro hm; simp at hm
      · rintro ⟨hsome, hu⟩
        injection hsome with hsome
        exact absurd hsome.symm hu

theorem fst_mem_part1Entry {o : Option String} {p : String × String}
    (h : p ∈ part1Entry o) : p.1 = "part1" := by
  cases o with
  | none => simp [part1Entry] at h
  | some a =>
    simp only [part1Entry] at h
    split_ifs at h with h1
    · rw [List.mem_singleton.mp h]
    · simp at h

theorem mem_part2Entry (m : Bool) (o : Option String) (u : String) :
    ("part2", u) ∈ part2Entry m o ↔ m = true ∧ o = some u ∧ u ≠ "" := by
  cases m with
  | false => simp [part2Entry]
  | true =>
    cases o with
    | none => simp [part2Entry]
    | some a =>
      simp only [part2Entry, if_true]
      split_ifs with h
      · have ha : a ≠ "" := (isEmpty_eq_false_iff a).mp (by simpa using h)
        constructor
        · intro hm
          have hu : u = a := by
            have := List.mem_singleton.mp hm
            exact (Prod.mk.injEq _ _ _ _ ▸ this).2
          subst hu
          exact ⟨by trivial, rfl, ha⟩
        · rintro ⟨_, hsome, _⟩
          injection hsome with hsome
          subst hsome
          exact List.mem_singleton.mpr rfl
      · have ha : a = "" := (String.isEmpty_iff a).mp (by
          cases hae : a.isEmpty
          · rw [hae] at h; simp at h
          · rfl)
        subst ha
        constructor
        · intro hm; simp at hm
        · rintro ⟨_, hsome, hu⟩
          injection hsome with hsome
          exact absurd hsome.symm hu

theorem fst_mem_part2Entry {m : Bool} {o : Option String} {p : String × String}
    (h : p ∈ part2Entry m o) : p.1 = "part2" := by
  cases m with
  | false => simp [part2Entry] at h
  | true =>
    cases o with
    | none => simp [part2Entry] at h
    | some a =>
      simp only [part2Entry, if_true] at h
      split_ifs at h with h1
      · rw [List.mem_singleton.mp h]
      · simp at h

theorem part1Entry_labels (o : Option String) :
    (part1Entry o).map Prod.fst = [] ∨ (part1Entry o).map Prod.fst = ["part1"] := by
  cases o with
  | none => exact Or.inl rfl
  | some a =>
    simp only [part1Entry]
    split_ifs
    · exact Or.inr rfl
    · exact Or.inl rfl

theorem part2Entry_labels (m : Bool) (o : Option String) :
    (part2Entry m o).map Prod.fst = [] ∨ (part2Entry m o).map Prod.fst = ["part2"] := by
  cases m with
  | false => exact Or.inl rfl
  | true =>
    cases o with
    | none => exact Or.inl rfl
    | some a =>
      simp only [part2Entry, if_true]
      split_ifs
      · exact Or.inr rfl
      · exact Or.inl rfl

/-- C4 (amended): the worklist contains a `("part1", u)` entry exactly
when `storymap_url` is the non-empty `u`, and a `("part2", u)` entry
exactly when `url_mismatch` is truthy and `storymap_url_2` is the
non-empty `u`; no other labels occur, each label occurs at most once,
and `part1` precedes `part2` in processing order (the label sequence is
a sublist of `["part1", "part2"]`). -/
theorem c4_worklist_amended : ∀ (r : ScrapeRecord) (u : String),
    (("part1", u) ∈ urls_to_process r ↔ r.storymap_url = some u ∧ u ≠ "") ∧
    (("part2", u) ∈ urls_to_process r ↔
      r.url_mismatch = true ∧ r.storymap_url_2 = some u ∧ u ≠ "") ∧
    ((urls_to_process r).map Prod.fst).Sublist ["part1", "part2"] := by
  intro r u
  refine ⟨?_, ?_, ?_⟩
  · rw [urls_to_process, List.mem_append]
    constructor
    · rintro (h | h)
      · exact (mem_part1Entry _ _).mp h
      · have hlab := fst_mem_part2Entry h
        simp at hlab
    · intro h
      exact Or.inl ((mem_part1Entry _ _).mpr h)
  · rw [urls_to_process, List.mem_append]
    constructor
    · rintro (h | h)
      · have hlab := fst_mem_part1Entry h
        simp at hlab
      · exact (mem_part2Entry _ _ _).mp h
    · intro h
      exact Or.inr ((mem_part2Entry _ _ _).mpr h)
  · rw [urls_to_process, List.map_append]
    rcases part1Entry_labels r.storymap_url with h1 | h1 <;>
      rcases part2Entry_labels r.url_mismatch r.storymap_url_2 with h2 | h2 <;>
      rw [h1, h2] <;> decide

/-! ### Claim C5 (amended): asymmetric handling of absent directories -/

theorem p2Step_split (st : ExtractState) (f : P2File) :
    p2Step st f =
      { records := (p2Step { records := st.records, log := [] } f).records
        log := st.log ++ (p2Step { records := st.records, log := [] } f).log } := by
  cases hs : skip2 f with
  | true =>
    rw [p2Step_skip hs, p2Step_skip hs]
    obtain ⟨recs, L⟩ := st
    simp
  | false =>
    rw [p2Step_proc hs, p2Step_proc hs]
    simp

theorem p2fold_split : ∀ (fs : List P2File) (recs : List (String × StudentRecord))
    (L : List String),
    fs.foldl p2Step { records := recs, log := L } =
      { records := (fs.foldl p2Step { records := recs, log := [] }).records
        log := L ++ (fs.foldl p2Step { records := recs, log := [] }).log } := by
  intro fs
  induction fs with
  | nil => intro recs L; simp
  | cons f fs ih =>
    intro recs L
    rw [List.foldl_cons, List.foldl_cons, p2Step_split { records := recs, log := L } f,
      p2Step_split { records := recs, log := [] } f]
    simp only [List.nil_append]
    generalize (p2Step { records := recs, log := [] } f).records = R1
    generalize (p2Step { records := recs, log := [] } f).log = L1
    rw [ih R1 (L ++ L1), ih R1 L1]
    simp [List.append_assoc]

/-- C5 (amended): the two absent-directory cases are handled
asymmetrically.  An absent Part-1 directory produces exactly one extra
log line (the CRITICAL message, prepended to the log of the run with an
empty Part-1 directory) and the Part-2 phase still runs and produces the
same records.  An absent Part-2 directory is skipped silently: the run
is byte-identical to a run with an empty Part-2 directory, so no log
entry records the absence, while the Part-1 phase still runs. -/
theorem c5_missing_dir_amended : ∀ (fs1 : List P1File) (fs2 : List P2File),
    process_files (some fs1) none = process_files (some fs1) (some []) ∧
    (process_files none (some fs2)).records =
      (process_files (some []) (some fs2)).records ∧
    (process_files none (some fs2)).log =
      critMsg :: (process_files (some []) (some fs2)).log := by
  intro fs1 fs2
  have h1 : process_files none (some fs2) =
      fs2.foldl p2Step { records := [], log := [critMsg] } := rfl
  have h2 : process_files (some []) (some fs2) =
      fs2.foldl p2Step { records := [], log := [] } := rfl
  refine ⟨rfl, ?_, ?_⟩
  · rw [h1, h2, p2fold_split fs2 [] [critMsg]]
  · rw [h1, h2, p2fold_split fs2 [] [critMsg]]
    simp

/-! ### Claim C8: the screenshotter skips existing output files -/

theorem scrapePair_mem {ok : String → Bool} {s : String} {st : ScrapeState}
    {p : String × String} (h : output_path s p.1 ∈ st.fs) :
    scrapePair ok s st p = st := by
  simp [scrapePair, h]

theorem pairsFold_mem {ok : String → Bool} {s : String} :
    ∀ (ps : List (String × String)) (st : ScrapeState),
    (∀ p ∈ ps, output_path s p.1 ∈ st.fs) →
    ps.foldl (scrapePair ok s) st = st := by
  intro ps
  induction ps with
  | nil => intro st _; rfl
  | cons p ps ih =>
    intro st h
    rw [List.foldl_cons, scrapePair_mem (h p (List.mem_cons_self _ _))]
    exact ih st (fun q hq => h q (List.mem_cons_of_mem _ hq))

theorem recStep_mem {ok : String → Bool} {st : ScrapeState} {r : ScrapeRecord}
    (h : ∀ q ∈ recordPaths r, q ∈ st.fs) :
    scrapeRecordStep ok st r = st := by
  cases hstu : r.student with
  | none => simp [scrapeRecordStep, hstu]
  | some s =>
    by_cases hse : s.isEmpty
    · simp [scrapeRecordStep, hstu, hse]
    · rw [scrapeRecordStep, hstu]
      dsimp only
      rw [if_neg hse]
      apply pairsFold_mem
      intro p hp
      apply h
      rw [recordPaths, hstu]
      dsimp only
      rw [if_neg hse]
      exact List.mem_map.mpr ⟨p, hp, rfl⟩

/-- C8: a worklist pair whose target screenshot already exists is skipped
with no navigation and no write; in particular, re-running the
screenshotter when every record's target images already exist performs
zero navigations, writes nothing, and leaves the file system exactly as
it was. -/
theorem c8_skip_existing :
    (∀ (ok : String → Bool) (s : String) (st : ScrapeState) (p : String × String),
      output_path s p.1 ∈ st.fs → scrapePair ok s st p = st) ∧
    (∀ (ok : String → Bool) (data : List ScrapeRecord) (fs0 : List String),
      (∀ r ∈ data, ∀ q ∈ recordPaths r, q ∈ fs0) →
      scrape_storymaps ok data fs0 = { fs := fs0, navs := [], writes := [] }) := by
  constructor
  · intro ok s st p h
    exact scrapePair_mem h
  · intro ok data fs0 h
    rw [scrape_storymaps]
    induction data with
    | nil => rfl
    | cons r data ih =>
      rw [List.foldl_cons, recStep_mem (h r (List.mem_cons_self _ _))]
      exact ih (fun r' hr' => h r' (List.mem_cons_of_mem _ hr'))

/-- Witness for C8: one record whose single target already exists; the
run performs no navigation and leaves the file system unchanged. -/
theorem c8_skip_existing_witness :
    scrapePair alwaysOk "x" c8st c8pair = c8st ∧
    scrape_storymaps alwaysOk [c8rec] [c8path] = { fs := [c8path], navs := [], writes := [] } :=
  ⟨c8_skip_existing.1 alwaysOk "x" c8st c8pair (by decide),
   c8_skip_existing.2 alwaysOk [c8rec] [c8path] (by decide)⟩

/-! ### Claim C10: hidden and non-HTML files are invisible to the run -/

/-- C10: inserting a file whose name starts with "." anywhere in the
Part-1 listing, or a file whose name starts with "." or does not end in
".html" anywhere in the Part-2 listing, leaves the entire extractor
state — records and log — unchanged: no record is created or modified
and no log entry is written for such a file. -/
theorem c10_skipped_files_frame :
    (∀ (d2 : Option (List P2File)) (pre post : List P1File) (f : P1File),
      skip1 f = true →
      process_files (some (pre ++ f :: post)) d2 = process_files (some (pre ++ post)) d2) ∧
    (∀ (d1 : Option (List P1File)) (pre post : List P2File) (g : P2File),
      skip2 g = true →
      process_files d1 (some (pre ++ g :: post)) = process_files d1 (some (pre ++ post))) := by
  constructor
  · intro d2 pre post f hf
    have hp1 : p1State (pre ++ f :: post) = p1State (pre ++ post) := by
      rw [p1State, p1State, List.foldl_append, List.foldl_append, List.foldl_cons,
        p1Step_skip hf]
    cases d2 with
    | none => simp [process_files, hp1]
    | some fs => simp [process_files, hp1]
  · intro d1 pre post g hg
    have hfold : ∀ st : ExtractState,
        (pre ++ g :: post).foldl p2Step st = (pre ++ post).foldl p2Step st := by
      intro st
      rw [List.foldl_append, List.foldl_append, List.foldl_cons, p2Step_skip hg]
    cases d1 with
    | none => simp [process_files, hfold]
    | some fs => simp [process_files, hfold]

/-- Witness for C10: a hidden file in the Part-1 listing and a non-HTML
file in the Part-2 listing change nothing. -/
theorem c10_skipped_files_frame_witness :
    process_files (some [hiddenP1, c1p1]) (some [c1p2a]) =
      process_files (some [c1p1]) (some [c1p2a]) ∧
    process_files (some [c1p1]) (some [strayP2, c1p2a]) =
      process_files (some [c1p1]) (some [c1p2a]) :=
  ⟨c10_skipped_files_frame.1 (some [c1p2a]) [] [c1p1] hiddenP1 (by decide),
   c10_skipped_files_frame.2 (some [c1p1]) [] [c1p2a] strayP2 (by decide)⟩
